import Mathlib

/-!
Verification development for the `acceler` outreach pipeline
(`src/agents/`).  The Python sources are shallowly embedded: each pure
fragment of the agents becomes a Lean function over explicit data, the
record store becomes a list of rows, and each claim of the
natural-language specification is settled against these definitions.

Conventions:
* Python strings are modelled as `String` for record fields and as
  `List Char` where the code does character-level surgery
  (`extract.py`, `score.py` response handling).
* A DB `null` in a text column is modelled as the empty string when the
  code only ever tests truthiness (`not person.get("email")`), and as
  `Option` where the code distinguishes null (`scored_at`,
  `priority_score`).
* `json.loads` (Python standard library, external to the repo) is
  modelled by an inductive grammar relation `JG` following RFC 8259.
-/

namespace Acceler

/-! ## Python string primitives (character-level, shared helpers) -/

/-- Python whitespace as stripped by `str.strip()` (ASCII part). -/
def pyWs (c : Char) : Bool :=
  c == ' ' || c == '\t' || c == '\n' || c == '\r' || c == '\x0B' || c == '\x0C'

/-- The backtick character (code 96), used for code fences. -/
def btick : Char := Char.ofNat 96

/-- Drop leading characters satisfying `p` (Python `lstrip`). -/
def lstripBy (p : Char → Bool) (l : List Char) : List Char := l.dropWhile p

/-- Drop trailing characters satisfying `p` (Python `rstrip`). -/
def rstripBy (p : Char → Bool) (l : List Char) : List Char :=
  (l.reverse.dropWhile p).reverse

/-- Python `str.strip()` on a character list. -/
def pyStripL (l : List Char) : List Char := rstripBy pyWs (lstripBy pyWs l)

/-- Python `str.strip()` on a `String`. -/
def pyStripS (s : String) : String := ⟨pyStripL s.data⟩

/-- Python `str.lower()` (ASCII case folding) on a `String`. -/
def lowerS (s : String) : String := ⟨s.data.map Char.toLower⟩

/-- Python `s[:n]` on a `String`. -/
def takeS (s : String) (n : Nat) : String := ⟨s.data.take n⟩

/-- Python `s.startswith(pre)` on a `String`. -/
def startsWithS (s pre : String) : Bool := pre.data.isPrefixOf s.data

/-! ## Data model: the `people` table row (§3 of the spec) -/

structure Person where
  id : String
  name : String
  title : String
  organization : String
  email : String
  linkedin : String
  context : String
  for_tag : String
  status : String
  priority_score : Option Int
  priority_reasons : Option String
  shared_background : Option String
  scored_at : Option String
  seniority : String
  org_employee_count : Option Int
  org_revenue : Option Int
  org_total_funding : Option Int
  org_industry : String
  apollo_data : Option String
deriving DecidableEq

/-- Rank of a lifecycle status in the order
`discovered → enriched → outreach_drafted` (§4.4). -/
def statusRank : String → Nat
  | "discovered" => 0
  | "enriched" => 1
  | "outreach_drafted" => 2
  | _ => 0

/-! ## Identity Matcher (`enrich.py`, `find_linkedin_match`, lines 43-63) -/

/-- One row of the offline LinkedIn connections export
(`load_connections_csv`): every field already `.strip()`-ed. -/
structure Connection where
  first_name : String
  last_name : String
  email : String
  company : String
  position : String
  linkedin_url : String
  connected_on : String
deriving DecidableEq

/-- Exact-match predicate of the first loop of `find_linkedin_match`:
candidate first and last name equal the normalised query names. -/
def exactMatchB (fl ll : String) (c : Connection) : Bool :=
  lowerS c.first_name == fl && lowerS c.last_name == ll

/-- Fallback predicate of the second loop: first name equal and the
candidate's last name starts with the first 3 characters of the query's
last name. -/
def fallbackMatchB (fl ll : String) (c : Connection) : Bool :=
  lowerS c.first_name == fl && startsWithS (lowerS c.last_name) (takeS ll 3)

/-- Embedding of `find_linkedin_match(first_name, last_name, connections)`
(`src/agents/enrich.py` lines 43-63). -/
def find_linkedin_match (first_name last_name : String)
    (connections : List Connection) : Option Connection :=
  let fl := pyStripS (lowerS first_name)
  let ll := pyStripS (lowerS last_name)
  match connections.find? (exactMatchB fl ll) with
  | some c => some c
  | none =>
      if 3 ≤ ll.length then connections.find? (fallbackMatchB fl ll)
      else none

/-! ## Enrichment merge (`enrich.py`, `enrich_person`, lines 82-176) -/

/-- Normalised Apollo match result as returned by
`apollo_client.match_person` (all string fields default to `""`,
numeric org fields to `None`; `raw` is the raw person payload that is
stored as `apollo_data`). -/
structure ApolloData where
  email : String
  linkedin_url : String
  title : String
  seniority : String
  org_employee_count : Option Int
  org_revenue : Option Int
  org_total_funding : Option Int
  org_industry : String
  raw : String
deriving DecidableEq

/-- The `updates` dict accumulated by `enrich_person`; `none` means the
key is absent from the dict. -/
structure Updates where
  email : Option String := none
  linkedin : Option String := none
  title : Option String := none
  seniority : Option String := none
  org_employee_count : Option Int := none
  org_revenue : Option Int := none
  org_total_funding : Option Int := none
  org_industry : Option String := none
  apollo_data : Option String := none
  context : Option String := none
  status : Option String := none
deriving DecidableEq

/-- The empty `updates` dict. -/
def Updates.empty : Updates := {}

/-- Step 1 of `enrich_person` (lines 94-126): merge an Apollo match into
`updates`, filling only blank person fields for email / linkedin /
title, always writing the filterable org columns and the raw payload.
`apollo = none` covers both "no match" and the caught Apollo error. -/
def apolloUpdates (p : Person) (apollo : Option ApolloData) : Updates :=
  match apollo with
  | none => Updates.empty
  | some d =>
      { email := if d.email ≠ "" ∧ p.email = "" then some d.email else none
        linkedin := if d.linkedin_url ≠ "" ∧ p.linkedin = "" then some d.linkedin_url else none
        title := if d.title ≠ "" ∧ p.title = "" then some d.title else none
        seniority := if d.seniority ≠ "" then some d.seniority else none
        org_employee_count := d.org_employee_count
        org_revenue := d.org_revenue
        org_total_funding := d.org_total_funding
        org_industry := if d.org_industry ≠ "" then some d.org_industry else none
        apollo_data := some d.raw }

/-- Python substring containment (`needle in hay` on strings). -/
def containsSub (needle : List Char) : List Char → Bool
  | [] => needle.isEmpty
  | c :: rest => needle.isPrefixOf (c :: rest) || containsSub needle rest

/-- The 1st-degree marker literal appended to `context`. -/
def firstDegreeMarker : String := "[1st-degree LinkedIn connection]"

/-- Step 2 of `enrich_person` (lines 129-155): merge a LinkedIn CSV
match into `updates`, supplementing blanks only (`"email" not in
updates` guards included), and appending the 1st-degree marker to
`context` when missing.  `conn = none` covers "no connections file",
"no match" and the caught CSV error. -/
def linkedinUpdates (p : Person) (u : Updates) (conn : Option Connection) : Updates :=
  match conn with
  | none => u
  | some c =>
      { u with
        email := if c.email ≠ "" ∧ p.email = "" ∧ u.email = none then some c.email else u.email
        linkedin := if c.linkedin_url ≠ "" ∧ p.linkedin = "" ∧ u.linkedin = none then
            some c.linkedin_url else u.linkedin
        title := if c.position ≠ "" ∧ p.title = "" ∧ u.title = none then
            some c.position else u.title
        context := if ¬ (containsSub firstDegreeMarker.data p.context.data) then
            some (pyStripS (p.context ++ " " ++ firstDegreeMarker)) else u.context }

/-- The full `updates` dict computed by one enrichment pass over one
person (before the status key is added). -/
def enrichUpdates (p : Person) (apollo : Option ApolloData) (conn : Option Connection) : Updates :=
  linkedinUpdates p (apolloUpdates p apollo) conn

/-- Apply an `updates` dict to a person row (the Supabase partial
update: present keys overwrite, absent keys are untouched). -/
def applyUpdates (p : Person) (u : Updates) : Person :=
  { p with
    email := u.email.getD p.email
    linkedin := u.linkedin.getD p.linkedin
    title := u.title.getD p.title
    seniority := u.seniority.getD p.seniority
    org_employee_count := u.org_employee_count.orElse (fun _ => p.org_employee_count)
    org_revenue := u.org_revenue.orElse (fun _ => p.org_revenue)
    org_total_funding := u.org_total_funding.orElse (fun _ => p.org_total_funding)
    org_industry := u.org_industry.getD p.org_industry
    apollo_data := u.apollo_data.orElse (fun _ => p.apollo_data)
    context := u.context.getD p.context
    status := u.status.getD p.status }

/-- Step 3 of `enrich_person` (lines 157-174), non-dry-run with
successful store writes: if `updates` is non-empty the row is updated
with `status := "enriched"` added, otherwise only the status is set to
`"enriched"`. -/
def enrich_person (p : Person) (apollo : Option ApolloData) (conn : Option Connection) : Person :=
  let u := enrichUpdates p apollo conn
  if u ≠ Updates.empty then applyUpdates p { u with status := some "enriched" }
  else { p with status := "enriched" }

/-- Embedding of `get_people(person_id, for_tag)`
(`src/agents/enrich.py` lines 179-189) over a list of rows. -/
def get_people (people : List Person) (personId : Option String)
    (forTag : Option String) : List Person :=
  let q := match personId with
    | some pid => people.filter (fun p => p.id == pid)
    | none => people.filter (fun p => p.status == "discovered")
  match forTag with
  | some t => q.filter (fun p => p.for_tag == t)
  | none => q

/-! ## Resilient call wrapper around the people-data API
(`apollo_client.py`, `match_person`, lines 13-101) -/

/-- Classified outcome of one HTTP attempt inside the retry loop:
`ok person` is a 2xx response whose parsed body may or may not contain
a person; `http code` is the response `raise_for_status` raises on
(4xx/5xx); `net` is a non-HTTP exception from `requests.post`. -/
inductive AttemptResult where
  | ok (person : Option ApolloData)
  | http (code : Nat)
  | net
deriving DecidableEq

/-- Outcome of `match_person` as observed by its caller. -/
inductive MatchOutcome where
  | result (r : Option ApolloData)
  | errorRetries
  | errorHTTP (code : Nat)
  | errorNet
  | errorConfig
deriving DecidableEq

/-- The `for attempt in range(3)` retry loop of `match_person`
(lines 48-70), with `left` attempts remaining and `attempt` the current
counter value.  Returns the outcome together with the list of sleeps
performed (`10 * 2 ** attempt` seconds before each rate-limit retry);
the `for`-`else` clause raises the retries-exceeded error. -/
def matchLoop (resp : Nat → AttemptResult) : Nat → Nat → MatchOutcome × List Nat
  | 0, _ => (.errorRetries, [])
  | left + 1, attempt =>
      match resp attempt with
      | .net => (.errorNet, [])
      | .ok person => (.result person, [])
      | .http code =>
          if code = 429 then
            let r := matchLoop resp left (attempt + 1)
            (r.1, 10 * 2 ^ attempt :: r.2)
          else if code = 422 then (.result none, [])
          else (.errorHTTP code, [])

/-- The payload built from the non-empty identity fields (lines 29-39):
Apollo rejects empty strings, so empty fields are omitted. -/
def buildPayload (first last org li em : String) : List (String × String) :=
  (if first ≠ "" then [("first_name", first)] else []) ++
  (if last ≠ "" then [("last_name", last)] else []) ++
  (if org ≠ "" then [("organization_name", org)] else []) ++
  (if li ≠ "" then [("linkedin_url", li)] else []) ++
  (if em ≠ "" then [("email", em)] else [])

/-- Embedding of `match_person` (`src/agents/apollo_client.py`): missing
API key raises, an empty payload short-circuits to "no match", otherwise
the 3-attempt retry loop runs with the attempt counter starting at 0. -/
def match_person (hasKey : Bool) (first last org li em : String)
    (resp : Nat → AttemptResult) : MatchOutcome × List Nat :=
  if ¬ hasKey then (.errorConfig, [])
  else if buildPayload first last org li em = [] then (.result none, [])
  else matchLoop resp 3 0

/-! ## Scoring stage (`score.py`) -/

/-- A parsed scoring response with all keys the main loop accesses.
`score_person` returns `json.loads` of the cleaned response text; the
main loop reads `total_score`, `proximity_score`, `relevance_score`,
`urgency_score` (KeyError on absence is caught as an entity error) and
`summary` / `proximity_reasons` with `""` defaults. -/
structure ScoreResult where
  proximity_score : Int
  relevance_score : Int
  urgency_score : Int
  total_score : Int
  summary : String
  proximity_reasons : String
deriving DecidableEq

/-- The aggregation contract of spec §4.5: the total is the sum of the
three sub-scores and every score lies within its declared bound.
(Stated from the spec; the point at issue is whether `score.py`
enforces it.) -/
def scoreWithinBounds (r : ScoreResult) : Bool :=
  r.total_score == r.proximity_score + r.relevance_score + r.urgency_score &&
  0 ≤ r.proximity_score && r.proximity_score ≤ 30 &&
  0 ≤ r.relevance_score && r.relevance_score ≤ 40 &&
  0 ≤ r.urgency_score && r.urgency_score ≤ 30 &&
  0 ≤ r.total_score && r.total_score ≤ 100

/-- The partial update written for a scored person
(`score.py` lines 208-219): `priority_score` is set to `total_score`
exactly as returned, `priority_reasons` to the breakdown string,
`shared_background` to `proximity_reasons`, `scored_at` to now. -/
def scoredUpdate (q : Person) (r : ScoreResult) (now : String) : Person :=
  { q with
    priority_score := some r.total_score
    priority_reasons := some ("[" ++ toString r.proximity_score ++ "/" ++
      toString r.relevance_score ++ "/" ++ toString r.urgency_score ++ "] " ++ r.summary)
    shared_background := some r.proximity_reasons
    scored_at := some now }

/-- Per-person processing of the scoring main loop
(`score.py` lines 197-228, non-dry-run): a parse/KeyError failure
(`r = none`) is caught, counted as an error and nothing is persisted;
a parsed result is persisted unconditionally.  Returns the new store
and whether the person counted as scored. -/
def processScore (store : List Person) (p : Person) (r : Option ScoreResult)
    (now : String) : List Person × Bool :=
  match r with
  | none => (store, false)
  | some res =>
      (store.map (fun q => if q.id == p.id then scoredUpdate q res now else q), true)

/-- Python `<` on strings: lexicographic comparison by code point. -/
def ltL : List Char → List Char → Bool
  | [], [] => false
  | [], _ :: _ => true
  | _ :: _, [] => false
  | a :: as, b :: bs =>
      if a.toNat < b.toNat then true
      else if b.toNat < a.toNat then false
      else ltL as bs

/-- Python `a < b` on strings. -/
def ltStr (a b : String) : Bool := ltL a.data b.data

/-- Staleness admission test of `get_people_to_score` (line 174):
re-admit when `scored_at` is null, empty, or lexicographically before
the 7-day cutoff ISO timestamp. -/
def staleOk (p : Person) (cutoff : String) : Bool :=
  match p.scored_at with
  | none => true
  | some s => s == "" || ltStr s cutoff

/-- Embedding of `get_people_to_score(person_id, for_tag, force)`
(`src/agents/score.py` lines 158-174): `--person-id` selects by id only
(the status and tag filters live in the `else` branch), and the
staleness filter is applied afterwards whenever `force` is false. -/
def get_people_to_score (people : List Person) (personId : Option String)
    (forTag : Option String) (force : Bool) (cutoff : String) : List Person :=
  let base := match personId with
    | some pid => people.filter (fun p => p.id == pid)
    | none =>
        let s := people.filter (fun p => p.status == "enriched")
        match forTag with
        | some t => s.filter (fun p => p.for_tag == t)
        | none => s
  if force then base else base.filter (fun p => staleOk p cutoff)

/-! ## Batch failure isolation (`score.py` main loop, lines 197-228;
the enrichment loop in `enrich.py` lines 94-127 and 214-221 has the
same shape) -/

/-- Result of the per-entity external call as seen by the
`try`/`except` in the batch loop: `retriesExceeded` is the
`RuntimeError` the resilient wrapper raises after 3 rate-limited
attempts, `otherError` any other exception. -/
inductive StageCallResult where
  | ok
  | retriesExceeded
  | otherError
deriving DecidableEq

/-- The batch loop: every person is processed in order inside
`try`/`except Exception`, which catches the retries-exceeded error like
any other entity-level error and continues with the next person.
Returns the per-person outcomes in processing order. -/
def runScoreBatch (call : Person → StageCallResult) :
    List Person → List (String × StageCallResult)
  | [] => []
  | p :: rest => (p.id, call p) :: runScoreBatch call rest

/-! ## Drafting stage (`draft.py`, `research_draft.py`) -/

/-- One row of the `outreach` table. -/
structure OutreachRow where
  id : String
  person_id : String
  channel : String
  subject : String
  body : String
  research_notes : Option String
  tone : Option String
  status : String
deriving DecidableEq

/-- Number of outreach rows for one prospect. -/
def rowCount (outreach : List OutreachRow) (pid : String) : Nat :=
  (outreach.filter (fun r => r.person_id == pid)).length

/-- Embedding of `get_people_to_draft(person_id, for_tag, min_score)`
(`src/agents/draft.py` lines 182-202). -/
def get_people_to_draft (people : List Person) (personId : Option String)
    (forTag : Option String) (minScore : Int) : List Person :=
  let base := match personId with
    | some pid => people.filter (fun p => p.id == pid)
    | none => people.filter (fun p =>
        p.status == "enriched" &&
        (match p.priority_score with
         | some s => decide (minScore ≤ s)
         | none => false))
  match forTag with
  | some t => base.filter (fun p => p.for_tag == t)
  | none => base

/-- Embedding of `get_already_drafted_ids` (lines 205-208). -/
def alreadyDraftedIds (outreach : List OutreachRow) : List String :=
  outreach.map (fun r => r.person_id)

/-- The insert executed per successfully drafted person in `draft.py`
main (lines 271-279); the DB-generated row id is irrelevant to the
claims and modelled as `""`. -/
def draftInsertRow (p : Person) (subject body : String) : OutreachRow :=
  { id := "", person_id := p.id, channel := "email", subject := subject,
    body := body, research_notes := none, tone := none, status := "drafted" }

/-- Rows inserted by the drafting loop: `outcome p = some (subject,
body)` is a successful draft, `none` covers the missing-template skip
and the caught per-person error (neither inserts). -/
def draftInserts (outcome : Person → Option (String × String)) :
    List Person → List OutreachRow
  | [] => []
  | p :: rest =>
      match outcome p with
      | some (s, b) => draftInsertRow p s b :: draftInserts outcome rest
      | none => draftInserts outcome rest

/-- Effect of one non-dry-run `draft.py` run on the `outreach` table
(`main`, lines 211-307): select people, drop already-drafted ones
unless `--force`, then insert one new row per successful draft —
there is no update path. -/
def draft_main (outreach : List OutreachRow) (people : List Person)
    (personId : Option String) (forTag : Option String) (minScore : Int)
    (force : Bool) (outcome : Person → Option (String × String)) : List OutreachRow :=
  let selected := get_people_to_draft people personId forTag minScore
  let todo := if force then selected
    else selected.filter (fun p => !((alreadyDraftedIds outreach).contains p.id))
  outreach ++ draftInserts outcome todo

/-- Embedding of `save_to_db` (`src/agents/research_draft.py` lines
277-308): if an outreach row exists for the person, update the first
one in place (by its row id); otherwise insert a new row. -/
def save_to_db (outreach : List OutreachRow) (p : Person)
    (subject body research tone : String) : List OutreachRow :=
  match (outreach.filter (fun r => r.person_id == p.id)).head? with
  | some r0 =>
      outreach.map (fun r =>
        if r.id == r0.id then
          { r with
            subject := subject
            body := body
            research_notes := some research
            tone := some tone
            status := "drafted" }
        else r)
  | none =>
      let row : OutreachRow :=
        { id := ""
          person_id := p.id
          channel := "email"
          subject := subject
          body := body
          research_notes := some research
          tone := some tone
          status := "drafted" }
      outreach ++ [row]

/-- Effect of one non-dry-run `research_draft.py` run on the `outreach`
table (`main`, lines 313-374): without `--force` an existing draft
makes the run exit before any write; `email = none` is the caught
research/draft error (no write); otherwise `save_to_db` runs. -/
def research_draft_main (outreach : List OutreachRow) (p : Person)
    (force : Bool) (email : Option (String × String))
    (research tone : String) : List OutreachRow :=
  if ¬ force ∧ (outreach.filter (fun r => r.person_id == p.id)) ≠ [] then outreach
  else
    match email with
    | none => outreach
    | some (s, b) => save_to_db outreach p s b research tone

/-! ## Structured Output Extractor (`extract.py` lines 56-75 and the
response cleaning in `score.py` lines 149-155 /
`research_draft.py` `parse_json_response`) -/

/-- Strip a leading code fence (`extract.py` lines 60-61 and the
equivalent in `score.py`): if the text starts with three backticks,
keep everything after the first newline, or drop 3 characters when
single-line. -/
def stripFenceL (l : List Char) : List Char :=
  if [btick, btick, btick].isPrefixOf l then
    if l.contains '\n' then (l.dropWhile (fun c => !(c == '\n'))).drop 1
    else l.drop 3
  else l

/-- Python `rstrip` of backticks (`json_str.rstrip` of the fence
character). -/
def rstripBtickL (l : List Char) : List Char := rstripBy (fun c => c == btick) l

/-- Index of the first occurrence of `c` (Python `find`), `none` when
absent. -/
def firstIdxOf (c : Char) : List Char → Option Nat
  | [] => none
  | x :: rest =>
      if x == c then some 0 else (firstIdxOf c rest).map (· + 1)

/-- Locate the first `[` and discard any preceding prose
(`extract.py` lines 65-67); Python `find` returns `-1` (no change)
when absent. -/
def sliceFromBracket (l : List Char) : List Char :=
  match firstIdxOf '[' l with
  | some i => l.drop i
  | none => l

/-- Python `json_str.endswith` of the closing bracket `]`. -/
def endsWithBracketL (l : List Char) : Bool := l.getLast? == some ']'

/-- Index of the last occurrence of `c` (Python `rfind`), `none` when
absent. -/
def lastIdxOf (c : Char) : List Char → Option Nat
  | [] => none
  | x :: rest =>
      match lastIdxOf c rest with
      | some i => some (i + 1)
      | none => if x == c then some 0 else none

/-- Truncation repair (`extract.py` lines 70-73): when the completion
was flagged as truncated or the text does not end with `]`, cut at the
last `}` and append `]`; without any `}` the text is left unchanged. -/
def repairL (truncated : Bool) (l : List Char) : List Char :=
  if truncated || !(endsWithBracketL l) then
    match lastIdxOf '}' l with
    | some i => l.take (i + 1) ++ [']']
    | none => l
  else l

/-- The cleaning steps of `extract_people` before truncation repair
(lines 57-67). -/
def preRepair (content : List Char) : List Char :=
  sliceFromBracket (pyStripL (rstripBtickL (stripFenceL (pyStripL content))))

/-- The full string transformation of `extract_people` (lines 57-73):
the text handed to `json.loads`.  `truncated` is the provider's
`stop_reason == "max_tokens"` flag. -/
def extract_pipeline (truncated : Bool) (content : List Char) : List Char :=
  repairL truncated (preRepair content)

/-- The response cleaning of `score_person` (`score.py` lines 149-153)
and `parse_json_response` (`research_draft.py` lines 73-79): strip,
strip a leading fence, strip trailing backticks, strip again — no
bracket search and no truncation repair. -/
def score_pipeline (content : List Char) : List Char :=
  pyStripL (rstripBtickL (stripFenceL (pyStripL content)))

/-! ## JSON grammar (model of Python `json.loads`, RFC 8259) -/

/-- JSON values.  Number tokens and string bodies are kept verbatim
(escape sequences undecoded): the claims compare parses of related
texts, for which the token-level representation is sufficient. -/
inductive Json where
  | null
  | bool (b : Bool)
  | num (tok : List Char)
  | str (body : List Char)
  | arr (elems : List Json)
  | obj (mems : List (List Char × Json))

/-- JSON insignificant whitespace. -/
def jsonWs (c : Char) : Bool := c == ' ' || c == '\t' || c == '\n' || c == '\r'

/-- A run of JSON whitespace. -/
def WsL (w : List Char) : Prop := ∀ c ∈ w, jsonWs c = true

instance decWsL (w : List Char) : Decidable (WsL w) :=
  inferInstanceAs (Decidable (∀ c ∈ w, jsonWs c = true))

/-- Nonempty digit run. -/
def DigitsL (l : List Char) : Prop := l ≠ [] ∧ ∀ c ∈ l, c.isDigit

/-- JSON integer part: digits with no leading zero (except `0`). -/
def IntTok (l : List Char) : Prop :=
  DigitsL l ∧ (l.head? = some '0' → l = ['0'])

/-- JSON fraction part (possibly absent). -/
def FracTok (l : List Char) : Prop :=
  l = [] ∨ ∃ ds, l = '.' :: ds ∧ DigitsL ds

/-- JSON exponent part (possibly absent). -/
def ExpTok (l : List Char) : Prop :=
  l = [] ∨ ∃ e sgn ds, l = e :: (sgn ++ ds) ∧ (e = 'e' ∨ e = 'E') ∧
    (sgn = [] ∨ sgn = ['+'] ∨ sgn = ['-']) ∧ DigitsL ds

/-- A complete JSON number token. -/
def NumTok (l : List Char) : Prop :=
  ∃ m ip fp ep, l = m ++ ip ++ fp ++ ep ∧ (m = [] ∨ m = ['-']) ∧
    IntTok ip ∧ FracTok fp ∧ ExpTok ep

/-- Hexadecimal digit. -/
def isHex (c : Char) : Bool :=
  c.isDigit || ('a' ≤ c && c ≤ 'f') || ('A' ≤ c && c ≤ 'F')

/-- Valid JSON string body (between the quotes): unescaped characters
are neither `"` nor `\` nor control characters; escapes are the RFC
8259 set including `\uXXXX`. -/
inductive SBody : List Char → Prop where
  | nil : SBody []
  | plain (c : Char) (rest : List Char) : c ≠ '"' → c ≠ '\\' → 0x20 ≤ c.toNat →
      SBody rest → SBody (c :: rest)
  | esc (c : Char) (rest : List Char) :
      (c = '"' ∨ c = '\\' ∨ c = '/' ∨ c = 'b' ∨ c = 'f' ∨ c = 'n' ∨ c = 'r' ∨ c = 't') →
      SBody rest → SBody ('\\' :: c :: rest)
  | uesc (a b c d : Char) (rest : List Char) : isHex a → isHex b → isHex c → isHex d →
      SBody rest → SBody ('\\' :: 'u' :: a :: b :: c :: d :: rest)

/-- A complete JSON string token with its decoded-as-verbatim body. -/
def StrTok (l body : List Char) : Prop :=
  l = '"' :: body ++ ['"'] ∧ SBody body

/-- The three judgment forms of the grammar: a single value, the tail
of an array after `[`, the tail of an object after `{`. -/
inductive JForm where
  | val (v : Json)
  | elems (vs : List Json)
  | mems (ms : List (List Char × Json))

/-- JSON grammar: `JG l (.val v)` states that the character list `l` is
a complete JSON text for the value `v` with no surrounding whitespace;
`.elems` / `.mems` are the suffix judgments after the opening bracket
of an array / object (they end with the closing bracket). -/
inductive JG : List Char → JForm → Prop where
  | nullTok : JG ['n', 'u', 'l', 'l'] (.val .null)
  | trueTok : JG ['t', 'r', 'u', 'e'] (.val (.bool true))
  | falseTok : JG ['f', 'a', 'l', 's', 'e'] (.val (.bool false))
  | numTok (l : List Char) : NumTok l → JG l (.val (.num l))
  | strTok (l body : List Char) : StrTok l body → JG l (.val (.str body))
  | arrNil (w : List Char) : WsL w → JG ('[' :: w ++ [']']) (.val (.arr []))
  | arrCons (l : List Char) (vs : List Json) : JG l (.elems vs) →
      JG ('[' :: l) (.val (.arr vs))
  | objNil (w : List Char) : WsL w → JG ('{' :: w ++ ['}']) (.val (.obj []))
  | objCons (l : List Char) (ms : List (List Char × Json)) : JG l (.mems ms) →
      JG ('{' :: l) (.val (.obj ms))
  | elemsLast (w₁ cs w₂ : List Char) (v : Json) : WsL w₁ → JG cs (.val v) → WsL w₂ →
      JG (w₁ ++ cs ++ w₂ ++ [']']) (.elems [v])
  | elemsCons (w₁ cs w₂ rest : List Char) (v : Json) (vs : List Json) :
      WsL w₁ → JG cs (.val v) → WsL w₂ → JG rest (.elems vs) →
      JG (w₁ ++ cs ++ w₂ ++ ',' :: rest) (.elems (v :: vs))
  | memsLast (w₁ ks w₂ w₃ cs w₄ : List Char) (k : List Char) (v : Json) :
      WsL w₁ → StrTok ks k → WsL w₂ → WsL w₃ → JG cs (.val v) → WsL w₄ →
      JG (w₁ ++ ks ++ w₂ ++ ':' :: (w₃ ++ cs ++ w₄ ++ ['}'])) (.mems [(k, v)])
  | memsCons (w₁ ks w₂ w₃ cs w₄ rest : List Char) (k : List Char) (v : Json)
      (ms : List (List Char × Json)) :
      WsL w₁ → StrTok ks k → WsL w₂ → WsL w₃ → JG cs (.val v) → WsL w₄ →
      JG rest (.mems ms) →
      JG (w₁ ++ ks ++ w₂ ++ ':' :: (w₃ ++ cs ++ w₄ ++ ',' :: rest)) (.mems ((k, v) :: ms))

/-- Model of `json.loads l = v`: the text is a JSON value surrounded by
optional insignificant whitespace. -/
def PyLoads (l : List Char) (v : Json) : Prop :=
  ∃ w₁ core w₂, WsL w₁ ∧ WsL w₂ ∧ JG core (.val v) ∧ l = w₁ ++ core ++ w₂

/-! ## List and character helper lemmas -/

lemma gl_append (a b : List Char) (c : Char) (h : b.getLast? = some c) :
    (a ++ b).getLast? = some c := by
  have hb : b ≠ [] := by
    intro hb
    rw [hb] at h
    simp at h
  rw [List.getLast?_append_of_ne_nil a hb, h]

lemma pyWs_cases (c : Char) (h : pyWs c = true) :
    c = ' ' ∨ c = '\t' ∨ c = '\n' ∨ c = '\r' ∨ c = '\x0B' ∨ c = '\x0C' := by
  have h6 := h
  simp [pyWs] at h6
  tauto

lemma digit_not_pyWs (c : Char) (h : c.isDigit = true) : pyWs c = false := by
  by_contra hws
  rcases pyWs_cases c (by simpa using hws) with h6 | h6 | h6 | h6 | h6 | h6 <;>
    (subst h6; exact absurd h (by decide))

lemma digit_ne_btick (c : Char) (h : c.isDigit = true) : c ≠ btick :=
  fun he => absurd h (by rw [he]; decide)

lemma jsonWs_pyWs (c : Char) (h : jsonWs c = true) : pyWs c = true := by
  simp only [jsonWs, Bool.or_eq_true] at h
  simp only [pyWs, Bool.or_eq_true]
  tauto

lemma dropWhile_append_all (p : Char → Bool) (a b : List Char)
    (h : ∀ c ∈ a, p c = true) : (a ++ b).dropWhile p = b.dropWhile p := by
  induction a with
  | nil => rfl
  | cons x xs ih =>
      rw [List.cons_append, List.dropWhile_cons, if_pos (h x (List.mem_cons_self x xs))]
      exact ih (fun c hc => h c (List.mem_cons_of_mem x hc))

lemma dropWhile_cons_neg (p : Char → Bool) (c : Char) (l : List Char)
    (h : p c = false) : (c :: l).dropWhile p = c :: l := by
  simp [List.dropWhile_cons, h]

lemma rstrip_sandwich (p : Char → Bool) (a w : List Char) (c : Char)
    (hw : ∀ x ∈ w, p x = true) (ha : a.getLast? = some c) (hc : p c = false) :
    rstripBy p (a ++ w) = a := by
  unfold rstripBy
  rw [List.reverse_append,
    dropWhile_append_all p w.reverse a.reverse
      (fun x hx => hw x (List.mem_reverse.mp hx))]
  have hrev : a.reverse.head? = some c := by rw [List.head?_reverse]; exact ha
  cases hrevc : a.reverse with
  | nil => rw [hrevc] at hrev; simp at hrev
  | cons y ys =>
      rw [hrevc] at hrev
      have hy : y = c := by simpa using hrev
      rw [dropWhile_cons_neg p y ys (hy ▸ hc), ← hrevc, List.reverse_reverse]

lemma pyStrip_sandwich (w₁ core w₂ : List Char)
    (hw₁ : ∀ c ∈ w₁, pyWs c = true) (hw₂ : ∀ c ∈ w₂, pyWs c = true)
    (hhead : ∃ c rest, core = c :: rest ∧ pyWs c = false)
    (hlast : ∃ c, core.getLast? = some c ∧ pyWs c = false) :
    pyStripL (w₁ ++ core ++ w₂) = core := by
  obtain ⟨c, rest, hc, hcf⟩ := hhead
  obtain ⟨d, hd, hdf⟩ := hlast
  unfold pyStripL lstripBy
  rw [List.append_assoc, dropWhile_append_all pyWs w₁ _ hw₁, hc, List.cons_append,
    dropWhile_cons_neg pyWs c _ hcf,
    show c :: (rest ++ w₂) = (c :: rest) ++ w₂ from rfl, ← hc]
  exact rstrip_sandwich pyWs core w₂ d hw₂ hd hdf

lemma pyStrip_fixed (core : List Char)
    (hhead : ∃ c rest, core = c :: rest ∧ pyWs c = false)
    (hlast : ∃ c, core.getLast? = some c ∧ pyWs c = false) :
    pyStripL core = core := by
  have := pyStrip_sandwich [] core [] (by simp) (by simp) hhead hlast
  simpa using this

lemma stripFence_id (core : List Char)
    (h : ∃ c rest, core = c :: rest ∧ c ≠ btick) : stripFenceL core = core := by
  obtain ⟨c, rest, hc, hcb⟩ := h
  unfold stripFenceL
  rw [if_neg ?_]
  rw [hc]
  intro hpre
  have hpc : btick = c := by
    simp [List.isPrefixOf] at hpre
    exact hpre.1
  exact hcb hpc.symm

lemma rstripBtick_id (core : List Char)
    (hlast : ∃ c, core.getLast? = some c ∧ c ≠ btick) :
    rstripBtickL core = core := by
  obtain ⟨d, hd, hdb⟩ := hlast
  unfold rstripBtickL
  have := rstrip_sandwich (fun c => c == btick) core [] d (by simp) hd
    (by simpa using hdb)
  simpa using this

lemma sliceFromBracket_head (core : List Char) (rest : List Char)
    (hc : core = '[' :: rest) : sliceFromBracket core = core := by
  subst hc
  simp [sliceFromBracket, firstIdxOf]

lemma repair_id (core : List Char) (h : core.getLast? = some ']') :
    repairL false core = core := by
  simp [repairL, endsWithBracketL, h]

/-! ## Head and last characters of JSON texts -/

lemma digits_last (l : List Char) (h : DigitsL l) :
    ∃ c, l.getLast? = some c ∧ c.isDigit = true := by
  obtain ⟨hne, hall⟩ := h
  refine ⟨l.getLast hne, List.getLast?_eq_getLast_of_ne_nil hne, hall _ (List.getLast_mem hne)⟩

lemma digits_head (l : List Char) (h : DigitsL l) :
    ∃ c rest, l = c :: rest ∧ c.isDigit = true := by
  obtain ⟨hne, hall⟩ := h
  cases l with
  | nil => exact absurd rfl hne
  | cons c rest => exact ⟨c, rest, rfl, hall c (List.mem_cons_self c rest)⟩

lemma numTok_head (l : List Char) (h : NumTok l) :
    ∃ c rest, l = c :: rest ∧ (c = '-' ∨ c.isDigit = true) := by
  obtain ⟨m, ip, fp, ep, hl, hm, hip, _, _⟩ := h
  rcases hm with hm | hm
  · subst hm
    obtain ⟨c, rest, hc, hcd⟩ := digits_head ip hip.1
    subst hl
    rw [hc]
    exact ⟨c, rest ++ fp ++ ep, by simp, Or.inr hcd⟩
  · subst hm
    subst hl
    exact ⟨'-', ip ++ fp ++ ep, by simp, Or.inl rfl⟩

lemma numTok_last (l : List Char) (h : NumTok l) :
    ∃ c, l.getLast? = some c ∧ c.isDigit = true := by
  obtain ⟨m, ip, fp, ep, hl, _, hip, hfp, hep⟩ := h
  subst hl
  rcases hep with hep | ⟨e, sgn, ds, heq, _, _, hds⟩
  · subst hep
    rcases hfp with hfp | ⟨ds, heq, hds⟩
    · subst hfp
      obtain ⟨c, hc, hcd⟩ := digits_last ip hip.1
      exact ⟨c, by simpa using gl_append m ip c hc, hcd⟩
    · subst heq
      obtain ⟨c, hc, hcd⟩ := digits_last ds hds
      refine ⟨c, ?_, hcd⟩
      have h1 : ('.' :: ds).getLast? = some c := gl_append ['.'] ds c hc
      simpa using gl_append m (ip ++ '.' :: ds) c (gl_append ip ('.' :: ds) c h1)
  · subst heq
    obtain ⟨c, hc, hcd⟩ := digits_last ds hds
    refine ⟨c, ?_, hcd⟩
    have h1 : (e :: (sgn ++ ds)).getLast? = some c :=
      gl_append [e] (sgn ++ ds) c (gl_append sgn ds c hc)
    exact gl_append (m ++ ip ++ fp) (e :: (sgn ++ ds)) c h1

/-! ## Grammar head/last lemmas -/

lemma strTok_head (l body : List Char) (h : StrTok l body) :
    ∃ rest, l = '"' :: rest := by
  obtain ⟨hl, _⟩ := h
  exact ⟨body ++ ['"'], hl⟩

lemma strTok_last (l body : List Char) (h : StrTok l body) :
    l.getLast? = some '"' := by
  obtain ⟨hl, _⟩ := h
  rw [hl]
  exact gl_append ('"' :: body) ['"'] '"' rfl

/-- Head character of a complete JSON value text: never whitespace,
never a backtick, and `[` exactly when the value is an array. -/
lemma jg_head (l : List Char) (v : Json) (h : JG l (.val v)) :
    ∃ c rest, l = c :: rest ∧ pyWs c = false ∧ c ≠ btick ∧
      (∀ vs, v = Json.arr vs → c = '[') := by
  cases h with
  | nullTok => exact ⟨'n', _, rfl, by decide, by decide, fun vs hv => by cases hv⟩
  | trueTok => exact ⟨'t', _, rfl, by decide, by decide, fun vs hv => by cases hv⟩
  | falseTok => exact ⟨'f', _, rfl, by decide, by decide, fun vs hv => by cases hv⟩
  | numTok l hn =>
      obtain ⟨c, rest, hc, hcd⟩ := numTok_head l hn
      refine ⟨c, rest, hc, ?_, ?_, fun vs hv => by cases hv⟩
      · rcases hcd with hcd | hcd
        · subst hcd; decide
        · exact digit_not_pyWs c hcd
      · rcases hcd with hcd | hcd
        · subst hcd; decide
        · exact digit_ne_btick c hcd
  | strTok l body hs =>
      obtain ⟨rest, hl⟩ := strTok_head l body hs
      exact ⟨'"', rest, hl, by decide, by decide, fun vs hv => by cases hv⟩
  | arrNil w hw => exact ⟨'[', _, rfl, by decide, by decide, fun vs hv => rfl⟩
  | arrCons l vs he => exact ⟨'[', l, rfl, by decide, by decide, fun vs hv => rfl⟩
  | objNil w hw => exact ⟨'{', _, rfl, by decide, by decide, fun vs hv => by cases hv⟩
  | objCons l ms hm => exact ⟨'{', l, rfl, by decide, by decide, fun vs hv => by cases hv⟩

/-- Expected last character per judgment form. -/
def lastOk : JForm → Char → Prop
  | .val (.arr _), c => c = ']'
  | .val (.obj _), c => c = '}'
  | .val (.str _), c => c = '"'
  | .val .null, c => c = 'l'
  | .val (.bool _), c => c = 'e'
  | .val (.num _), c => c.isDigit = true
  | .elems _, c => c = ']'
  | .mems _, c => c = '}'

/-- Last character of a JSON text: the closing token of the value. -/
lemma jg_last (l : List Char) (f : JForm) (h : JG l f) :
    ∃ c, l.getLast? = some c ∧ lastOk f c := by
  induction h with
  | nullTok => exact ⟨'l', rfl, rfl⟩
  | trueTok => exact ⟨'e', rfl, rfl⟩
  | falseTok => exact ⟨'e', rfl, rfl⟩
  | numTok l hn =>
      obtain ⟨c, hc, hcd⟩ := numTok_last l hn
      exact ⟨c, hc, hcd⟩
  | strTok l body hs => exact ⟨'"', strTok_last l body hs, rfl⟩
  | arrNil w hw =>
      exact ⟨']', gl_append ('[' :: w) [']'] ']' rfl, rfl⟩
  | arrCons l vs he ih =>
      obtain ⟨c, hc, hok⟩ := ih
      have hc' : c = ']' := hok
      subst hc'
      exact ⟨']', gl_append ['['] l ']' hc, rfl⟩
  | objNil w hw =>
      exact ⟨'}', gl_append ('{' :: w) ['}'] '}' rfl, rfl⟩
  | objCons l ms hm ih =>
      obtain ⟨c, hc, hok⟩ := ih
      have hc' : c = '}' := hok
      subst hc'
      exact ⟨'}', gl_append ['{'] l '}' hc, rfl⟩
  | elemsLast w₁ cs w₂ v hw₁ hv hw₂ ih =>
      exact ⟨']', gl_append (w₁ ++ cs ++ w₂) [']'] ']' rfl, rfl⟩
  | elemsCons w₁ cs w₂ rest v vs hw₁ hv hw₂ hrest ihv ihrest =>
      obtain ⟨c, hc, hok⟩ := ihrest
      have hc' : c = ']' := hok
      subst hc'
      exact ⟨']', gl_append (w₁ ++ cs ++ w₂) (',' :: rest) ']'
        (gl_append [','] rest ']' hc), rfl⟩
  | memsLast w₁ ks w₂ w₃ cs w₄ k v hw₁ hks hw₂ hw₃ hv hw₄ ih =>
      exact ⟨'}', gl_append (w₁ ++ ks ++ w₂) (':' :: (w₃ ++ cs ++ w₄ ++ ['}'])) '}'
        (gl_append [':'] _ '}' (gl_append (w₃ ++ cs ++ w₄) ['}'] '}' rfl)), rfl⟩
  | memsCons w₁ ks w₂ w₃ cs w₄ rest k v ms hw₁ hks hw₂ hw₃ hv hw₄ hrest ihv ihrest =>
      obtain ⟨c, hc, hok⟩ := ihrest
      have hc' : c = '}' := hok
      subst hc'
      exact ⟨'}', gl_append (w₁ ++ ks ++ w₂)
        (':' :: (w₃ ++ cs ++ w₄ ++ ',' :: rest)) '}'
        (gl_append [':'] _ '}' (gl_append (w₃ ++ cs ++ w₄) (',' :: rest) '}'
          (gl_append [','] rest '}' hc))), rfl⟩

/-- Last character of a JSON value text: never whitespace, never a
backtick, and `]` exactly for arrays. -/
lemma jg_val_last (l : List Char) (v : Json) (h : JG l (.val v)) :
    ∃ c, l.getLast? = some c ∧ pyWs c = false ∧ c ≠ btick ∧
      (∀ vs, v = Json.arr vs → c = ']') := by
  obtain ⟨c, hc, hok⟩ := jg_last l (.val v) h
  cases v with
  | null =>
      have : c = 'l' := hok
      subst this
      exact ⟨'l', hc, by decide, by decide, fun vs hv => by cases hv⟩
  | bool b =>
      have : c = 'e' := hok
      subst this
      exact ⟨'e', hc, by decide, by decide, fun vs hv => by cases hv⟩
  | num tok =>
      have hd : c.isDigit = true := hok
      exact ⟨c, hc, digit_not_pyWs c hd, digit_ne_btick c hd,
        fun vs hv => by cases hv⟩
  | str body =>
      have : c = '"' := hok
      subst this
      exact ⟨'"', hc, by decide, by decide, fun vs hv => by cases hv⟩
  | arr vs =>
      have : c = ']' := hok
      subst this
      exact ⟨']', hc, by decide, by decide, fun vs' hv => rfl⟩
  | obj ms =>
      have : c = '}' := hok
      subst this
      exact ⟨'}', hc, by decide, by decide, fun vs hv => by cases hv⟩

/-! ## Lemmas about the enrichment merge -/

lemma enrichUpdates_email_none (p : Person) (a : Option ApolloData)
    (c : Option Connection) (h : p.email ≠ "") :
    (enrichUpdates p a c).email = none := by
  unfold enrichUpdates linkedinUpdates apolloUpdates
  cases a <;> cases c <;> simp [Updates.empty, h]

lemma enrichUpdates_linkedin_none (p : Person) (a : Option ApolloData)
    (c : Option Connection) (h : p.linkedin ≠ "") :
    (enrichUpdates p a c).linkedin = none := by
  unfold enrichUpdates linkedinUpdates apolloUpdates
  cases a <;> cases c <;> simp [Updates.empty, h]

lemma enrichUpdates_title_none (p : Person) (a : Option ApolloData)
    (c : Option Connection) (h : p.title ≠ "") :
    (enrichUpdates p a c).title = none := by
  unfold enrichUpdates linkedinUpdates apolloUpdates
  cases a <;> cases c <;> simp [Updates.empty, h]

/-! ## Claim C2: fill-blanks-only enrichment merge -/

/-- C2 (confirmed): for every prospect and every enrichment pass, a
non-empty `email`, `linkedin` or `title` field is left exactly as it
was — the pass neither empties it nor overwrites it with a different
value. -/
theorem claim_C2_fill_blanks_only (p : Person) (a : Option ApolloData)
    (c : Option Connection) :
    (p.email ≠ "" → (enrich_person p a c).email = p.email) ∧
    (p.linkedin ≠ "" → (enrich_person p a c).linkedin = p.linkedin) ∧
    (p.title ≠ "" → (enrich_person p a c).title = p.title) := by
  refine ⟨fun h => ?_, fun h => ?_, fun h => ?_⟩ <;>
    · unfold enrich_person
      dsimp only
      split
      · simp [applyUpdates, enrichUpdates_email_none p a c,
          enrichUpdates_linkedin_none p a c, enrichUpdates_title_none p a c, h]
      · rfl

/-- Concrete person whose contact fields are all filled. -/
def filledPerson : Person :=
  { id := "p0", name := "Ann Smith", title := "CTO", organization := "Acme"
    email := "ann@acme.test", linkedin := "ln-ann", context := "ctx"
    for_tag := "acceler", status := "discovered", priority_score := none
    priority_reasons := none, shared_background := none, scored_at := none
    seniority := "", org_employee_count := none, org_revenue := none
    org_total_funding := none, org_industry := "", apollo_data := none }

/-- Apollo data trying to supply different values for every field. -/
def clobberApollo : ApolloData :=
  { email := "other@x.test", linkedin_url := "ln-other", title := "CEO"
    seniority := "c_suite", org_employee_count := some 10
    org_revenue := some 5, org_total_funding := some 7
    org_industry := "tech", raw := "rawpayload" }

/-- CSV connection trying to supply different values as well. -/
def clobberConn : Connection :=
  { first_name := "Ann", last_name := "Smith", email := "third@x.test"
    company := "Acme", position := "CFO", linkedin_url := "ln-third"
    connected_on := "2024-01-01" }

/-- Witness for C2 at a concrete filled person under a clobbering
enrichment result. -/
theorem claim_C2_witness :
    filledPerson.email ≠ "" ∧ filledPerson.linkedin ≠ "" ∧ filledPerson.title ≠ "" ∧
    (enrich_person filledPerson (some clobberApollo) (some clobberConn)).email =
      filledPerson.email ∧
    (enrich_person filledPerson (some clobberApollo) (some clobberConn)).linkedin =
      filledPerson.linkedin ∧
    (enrich_person filledPerson (some clobberApollo) (some clobberConn)).title =
      filledPerson.title :=
  ⟨by decide, by decide, by decide,
    (claim_C2_fill_blanks_only filledPerson (some clobberApollo) (some clobberConn)).1
      (by decide),
    (claim_C2_fill_blanks_only filledPerson (some clobberApollo) (some clobberConn)).2.1
      (by decide),
    (claim_C2_fill_blanks_only filledPerson (some clobberApollo) (some clobberConn)).2.2
      (by decide)⟩

/-! ## Claim C5: enrichment status write -/

/-- A prospect that has already progressed to `outreach_drafted`. -/
def draftedProspect : Person :=
  { id := "p1", name := "N", title := "", organization := "", email := ""
    linkedin := "", context := "", for_tag := "t", status := "outreach_drafted"
    priority_score := none, priority_reasons := none, shared_background := none
    scored_at := none, seniority := "", org_employee_count := none
    org_revenue := none, org_total_funding := none, org_industry := ""
    apollo_data := none }

/-- C5 counterexample: a prospect in `outreach_drafted` targeted with
`--person-id` is selected by `get_people` and, on completion of its
enrichment pass, its status is written back to `enriched` — a
regression of the lifecycle, contradicting "enrichment never regresses
the prospect's status". -/
theorem claim_C5_counterexample :
    draftedProspect ∈ get_people [draftedProspect] (some "p1") none ∧
    draftedProspect.status = "outreach_drafted" ∧
    (enrich_person draftedProspect none none).status = "enriched" ∧
    statusRank (enrich_person draftedProspect none none).status <
      statusRank draftedProspect.status := by
  refine ⟨?_, rfl, rfl, ?_⟩ <;> decide

/-- C5 (amended): enrichment on completion always writes status
`enriched` (with or without new data); for prospects selected by the
normal `discovered` filter this never regresses the status, but a
prospect explicitly targeted via `--person-id` is reduced to `enriched`
even from `outreach_drafted`; targeting selects by id alone, ignoring
status. -/
theorem claim_C5_amended :
    (∀ (p : Person) a c, (enrich_person p a c).status = "enriched") ∧
    (∀ (p : Person) a c, p.status = "discovered" →
      statusRank p.status ≤ statusRank (enrich_person p a c).status) ∧
    (∀ (people : List Person) (pid : String) (p : Person),
      p ∈ get_people people (some pid) none ↔ p ∈ people ∧ p.id = pid) := by
  have hstat : ∀ (p : Person) a c, (enrich_person p a c).status = "enriched" := by
    intro p a c
    unfold enrich_person
    dsimp only
    split
    · simp [applyUpdates]
    · rfl
  refine ⟨hstat, fun p a c hp => ?_, fun people pid p => ?_⟩
  · rw [hstat, hp]; decide
  · simp [get_people, List.mem_filter]

/-- A freshly discovered prospect. -/
def discProspect : Person :=
  { draftedProspect with id := "p2", status := "discovered" }

/-- Witness for the amended C5 at a concrete discovered prospect. -/
theorem claim_C5_witness :
    (enrich_person discProspect none none).status = "enriched" ∧
    statusRank discProspect.status ≤
      statusRank (enrich_person discProspect none none).status ∧
    (discProspect ∈ get_people [discProspect] (some "p2") none ↔
      discProspect ∈ [discProspect] ∧ discProspect.id = "p2") :=
  ⟨claim_C5_amended.1 discProspect none none,
    claim_C5_amended.2.1 discProspect none none rfl,
    claim_C5_amended.2.2 [discProspect] "p2" discProspect⟩

/-! ## Claim C6: the Identity Matcher -/

/-- C6 (confirmed): the matcher returns the first candidate in input
order satisfying the exact (case-insensitive) name test; only when no
exact match exists and the normalised query last name has length ≥ 3
does it return the first candidate satisfying the 3-character-prefix
fallback; otherwise it returns none.  (`List.find?` returns the first
list element satisfying the predicate, and the embedding as a pure
function makes determinism immediate.) -/
theorem claim_C6_identity_matcher (first_name last_name : String)
    (conns : List Connection) :
    (∀ c, conns.find? (exactMatchB (pyStripS (lowerS first_name))
        (pyStripS (lowerS last_name))) = some c →
      find_linkedin_match first_name last_name conns = some c) ∧
    (conns.find? (exactMatchB (pyStripS (lowerS first_name))
        (pyStripS (lowerS last_name))) = none →
      3 ≤ (pyStripS (lowerS last_name)).length →
      find_linkedin_match first_name last_name conns =
        conns.find? (fallbackMatchB (pyStripS (lowerS first_name))
          (pyStripS (lowerS last_name)))) ∧
    (conns.find? (exactMatchB (pyStripS (lowerS first_name))
        (pyStripS (lowerS last_name))) = none →
      (pyStripS (lowerS last_name)).length < 3 →
      find_linkedin_match first_name last_name conns = none) := by
  refine ⟨fun c h => ?_, fun h h3 => ?_, fun h h3 => ?_⟩
  · unfold find_linkedin_match
    dsimp only
    rw [h]
  · unfold find_linkedin_match
    dsimp only
    rw [h, if_pos h3]
  · unfold find_linkedin_match
    dsimp only
    rw [h, if_neg (by omega)]

/-- Candidate with a different surname. -/
def connOther : Connection :=
  { first_name := "Bob", last_name := "Jones", email := "", company := ""
    position := "", linkedin_url := "", connected_on := "" }

/-- Candidate with a compound surname sharing the 3-character prefix. -/
def connCompound : Connection :=
  { first_name := "Ann", last_name := "Smithers", email := "", company := ""
    position := "", linkedin_url := "ln-smithers", connected_on := "" }

/-- Witness for C6: no exact match for query (Ann, Smith-Jones), last
name length ≥ 3, so the fallback returns the first prefix-compatible
candidate. -/
theorem claim_C6_witness :
    [connOther, connCompound].find? (exactMatchB (pyStripS (lowerS "Ann"))
      (pyStripS (lowerS "Smith-Jones"))) = none ∧
    3 ≤ (pyStripS (lowerS "Smith-Jones")).length ∧
    find_linkedin_match "Ann" "Smith-Jones" [connOther, connCompound] =
      some connCompound := by
  refine ⟨by decide, by decide, ?_⟩
  rw [(claim_C6_identity_matcher "Ann" "Smith-Jones" [connOther, connCompound]).2.1
    (by decide) (by decide)]
  decide

/-! ## Claim C4: batch behaviour on retries-exceeded -/

/-- First entity of the two-entity batch. -/
def batchP1 : Person := { draftedProspect with id := "e1", status := "enriched" }

/-- Second entity of the two-entity batch. -/
def batchP2 : Person := { draftedProspect with id := "e2", status := "enriched" }

/-- A call that exhausts its retries on the first entity and succeeds
on the second. -/
def cexCall : Person → StageCallResult :=
  fun p => if p.id == "e1" then .retriesExceeded else .ok

/-- C4 counterexample: when the resilient wrapper raises
retries-exceeded on the first entity, the loop's `except Exception`
catches it like any entity error and the second entity is still
processed (and succeeds) — the batch is not aborted. -/
theorem claim_C4_counterexample :
    cexCall batchP1 = .retriesExceeded ∧
    runScoreBatch cexCall [batchP1, batchP2] =
      [("e1", .retriesExceeded), ("e2", .ok)] := by
  refine ⟨rfl, ?_⟩
  decide

/-- C4 (amended): a retries-exceeded failure is an entity-level error:
every entity of the batch is processed exactly once, in order,
independently of the outcomes of earlier entities (matching §4.1's
"must not abort the whole batch" rather than §5's abort). -/
theorem claim_C4_amended (call : Person → StageCallResult) (people : List Person) :
    runScoreBatch call people = people.map (fun p => (p.id, call p)) := by
  induction people with
  | nil => rfl
  | cons p rest ih => simp [runScoreBatch, ih]

/-! ## Claim C10: scoring selection under `--person-id` -/

/-- A prospect scored one day before "now" (inside the 7-day window). -/
def recentProspect : Person :=
  { draftedProspect with
    id := "p1"
    status := "enriched"
    scored_at := some "2026-10-11T00:00:00+00:00" }

/-- The 7-day staleness cutoff for a run on 2026-10-12. -/
def cutoffEx : String := "2026-10-05T00:00:00+00:00"

/-- C10 counterexample: a prospect scored within the 7-day window and
targeted via `--person-id` without `--force` is removed by the
staleness filter, so it is not selected for scoring — contradicting
"bypasses both the status filter and the staleness filter". -/
theorem claim_C10_counterexample :
    recentProspect.id = "p1" ∧
    staleOk recentProspect cutoffEx = false ∧
    get_people_to_score [recentProspect] (some "p1") none false cutoffEx = [] := by
  refine ⟨rfl, ?_, ?_⟩ <;> decide

/-- C10 (amended): `--person-id` bypasses the status filter and the tag
filter (selection is by id alone), but the staleness filter still
applies unless `--force` is passed: the targeted prospect is selected
iff it is stale (or force is set), regardless of its status. -/
theorem claim_C10_amended (people : List Person) (pid : String)
    (forTag : Option String) (force : Bool) (cutoff : String) (p : Person) :
    p ∈ get_people_to_score people (some pid) forTag force cutoff ↔
      p ∈ people ∧ p.id = pid ∧ (force = true ∨ staleOk p cutoff = true) := by
  unfold get_people_to_score
  cases force
  · simp [List.mem_filter, and_assoc]
    tauto
  · simp [List.mem_filter, and_assoc]

/-! ## Claim C1: the aggregation contract at persistence time -/

/-- An enriched prospect eligible for scoring. -/
def scoreeProspect : Person :=
  { draftedProspect with id := "p1", status := "enriched" }

/-- A parsed scoring result violating the declared bounds:
sub-scores above their caps and a total of 150 > 100. -/
def badScore : ScoreResult :=
  { proximity_score := 50, relevance_score := 50, urgency_score := 50
    total_score := 150, summary := "s", proximity_reasons := "r" }

/-- C1 counterexample: the scoring stage performs no bounds or sum
validation — a parsed result with total 150 (and sub-scores beyond
their caps) is persisted verbatim to the record store, contradicting
"treated as a MalformedOutput error and never persisted". -/
theorem claim_C1_counterexample :
    scoreWithinBounds badScore = false ∧
    (processScore [scoreeProspect] scoreeProspect (some badScore) "T").2 = true ∧
    (processScore [scoreeProspect] scoreeProspect (some badScore) "T").1 =
      [scoredUpdate scoreeProspect badScore "T"] ∧
    (scoredUpdate scoreeProspect badScore "T").priority_score = some 150 := by
  refine ⟨?_, rfl, ?_, rfl⟩ <;> decide

/-- C1 (amended): the scoring stage accepts any successfully parsed
result carrying the four numeric keys: it persists
`priority_score := total_score` exactly as returned, with no check that
the total is the sum of the sub-scores or that any score lies within
its bound; only a result that fails to parse (or lacks a required key)
is an error and is not persisted. -/
theorem claim_C1_amended (store : List Person) (p : Person) (res : ScoreResult)
    (now : String) (q : Person) (hq : q ∈ store) (hid : q.id = p.id) :
    scoredUpdate q res now ∈ (processScore store p (some res) now).1 ∧
    (scoredUpdate q res now).priority_score = some res.total_score ∧
    (processScore store p (some res) now).2 = true ∧
    processScore store p none now = (store, false) := by
  refine ⟨?_, rfl, rfl, rfl⟩
  simp only [processScore]
  exact List.mem_map.mpr ⟨q, hq, by simp [hid]⟩

/-- Witness for the amended C1: the out-of-bounds result above is
persisted for a concrete store. -/
theorem claim_C1_witness :
    scoredUpdate scoreeProspect badScore "T" ∈
      (processScore [scoreeProspect] scoreeProspect (some badScore) "T").1 ∧
    (scoredUpdate scoreeProspect badScore "T").priority_score =
      some badScore.total_score :=
  ⟨(claim_C1_amended [scoreeProspect] scoreeProspect badScore "T" scoreeProspect
      (by decide) rfl).1,
    (claim_C1_amended [scoreeProspect] scoreeProspect badScore "T" scoreeProspect
      (by decide) rfl).2.1⟩

/-! ## Claim C9: the resilient wrapper around the people-data API -/

lemma matchLoop_429 (resp : Nat → AttemptResult) (left attempt : Nat)
    (h : resp attempt = .http 429) :
    matchLoop resp (left + 1) attempt =
      ((matchLoop resp left (attempt + 1)).1,
        10 * 2 ^ attempt :: (matchLoop resp left (attempt + 1)).2) := by
  simp [matchLoop, h]

lemma matchLoop_429_chain (resp : Nat → AttemptResult) :
    ∀ left attempt, (∀ j, j < left → resp (attempt + j) = .http 429) →
      matchLoop resp left attempt =
        (.errorRetries, (List.range left).map (fun j => 10 * 2 ^ (attempt + j))) := by
  intro left
  induction left with
  | zero =>
      intro attempt _
      simp [matchLoop]
  | succ n ih =>
      intro attempt h
      have h0 : resp attempt = .http 429 := by simpa using h 0 (Nat.succ_pos n)
      have hrange : (List.range (n + 1)).map (fun j => 10 * 2 ^ (attempt + j)) =
          10 * 2 ^ attempt :: (List.range n).map (fun j => 10 * 2 ^ (attempt + 1 + j)) := by
        rw [List.range_succ_eq_map, List.map_cons, List.map_map]
        refine congrArg₂ List.cons (by rw [Nat.add_zero]) ?_
        apply List.map_congr_left
        intro j _
        have harith : attempt + (j + 1) = attempt + 1 + j := by omega
        simp [Function.comp, harith]
      rw [matchLoop_429 resp n attempt h0,
        ih (attempt + 1) (fun j hj => by
          have hj1 := h (j + 1) (by omega)
          have heq : attempt + 1 + j = attempt + (j + 1) := by omega
          rw [heq]
          exact hj1),
        hrange]

lemma matchLoop_congr (resp resp2 : Nat → AttemptResult) :
    ∀ left attempt, (∀ j, j < left → resp (attempt + j) = resp2 (attempt + j)) →
      matchLoop resp left attempt = matchLoop resp2 left attempt := by
  intro left
  induction left with
  | zero => intro attempt _; rfl
  | succ n ih =>
      intro attempt h
      have h0 : resp attempt = resp2 attempt := by simpa using h 0 (Nat.succ_pos n)
      have hrec : matchLoop resp n (attempt + 1) = matchLoop resp2 n (attempt + 1) :=
        ih (attempt + 1) (fun j hj => by
          have := h (j + 1) (by omega)
          simpa [Nat.add_comm, Nat.add_assoc, Nat.add_left_comm] using this)
      simp [matchLoop, h0, hrec]

/-- C9 (confirmed): through the resilient wrapper, a 429 causes a wait
of `10 * 2 ^ attempt` seconds and a retry with one shared attempt
counter capped at 3 total attempts (exhaustion raises the fatal
retries-exceeded error with waits 10, 20, 40); a 422 is never retried
and yields `None`; any other failure (HTTP error or network exception)
propagates immediately without further attempts; and only the first
three attempt outcomes are ever consulted. -/
theorem claim_C9_resilient_wrapper (first last org li em : String)
    (resp : Nat → AttemptResult)
    (hpay : buildPayload first last org li em ≠ []) :
    ((∀ i, i < 3 → resp i = .http 429) →
      match_person true first last org li em resp = (.errorRetries, [10, 20, 40])) ∧
    (∀ k, k < 3 → (∀ j, j < k → resp j = .http 429) → resp k = .http 422 →
      match_person true first last org li em resp =
        (.result none, (List.range k).map (fun j => 10 * 2 ^ j))) ∧
    (∀ k code, k < 3 → (∀ j, j < k → resp j = .http 429) → resp k = .http code →
      code ≠ 429 → code ≠ 422 →
      match_person true first last org li em resp =
        (.errorHTTP code, (List.range k).map (fun j => 10 * 2 ^ j))) ∧
    (∀ k, k < 3 → (∀ j, j < k → resp j = .http 429) → resp k = .net →
      match_person true first last org li em resp =
        (.errorNet, (List.range k).map (fun j => 10 * 2 ^ j))) ∧
    (∀ resp2 : Nat → AttemptResult, (∀ i, i < 3 → resp i = resp2 i) →
      match_person true first last org li em resp =
        match_person true first last org li em resp2) := by
  have hmp : match_person true first last org li em resp = matchLoop resp 3 0 := by
    unfold match_person
    rw [if_neg (by simp), if_neg hpay]
  refine ⟨fun h429 => ?_, fun k hk hpre hk422 => ?_, fun k code hk hpre hkc h1 h2 => ?_,
    fun k hk hpre hknet => ?_, fun resp2 hag => ?_⟩
  · rw [hmp, matchLoop_429_chain resp 3 0 (fun j hj => by simpa using h429 j hj)]
    decide
  · rw [hmp]
    interval_cases k
    · simp [matchLoop, hk422]
    · rw [matchLoop_429 resp 2 0 (by simpa using hpre 0 (by omega))]
      simp [matchLoop, hk422]
      all_goals decide
    · rw [matchLoop_429 resp 2 0 (by simpa using hpre 0 (by omega)),
        matchLoop_429 resp 1 1 (by simpa using hpre 1 (by omega))]
      simp [matchLoop, hk422]
      all_goals decide
  · rw [hmp]
    interval_cases k
    · simp [matchLoop, hkc, h1, h2]
    · rw [matchLoop_429 resp 2 0 (by simpa using hpre 0 (by omega))]
      simp [matchLoop, hkc, h1, h2]
      all_goals decide
    · rw [matchLoop_429 resp 2 0 (by simpa using hpre 0 (by omega)),
        matchLoop_429 resp 1 1 (by simpa using hpre 1 (by omega))]
      simp [matchLoop, hkc, h1, h2]
      all_goals decide
  · rw [hmp]
    interval_cases k
    · simp [matchLoop, hknet]
    · rw [matchLoop_429 resp 2 0 (by simpa using hpre 0 (by omega))]
      simp [matchLoop, hknet]
      all_goals decide
    · rw [matchLoop_429 resp 2 0 (by simpa using hpre 0 (by omega)),
        matchLoop_429 resp 1 1 (by simpa using hpre 1 (by omega))]
      simp [matchLoop, hknet]
      all_goals decide
  · have hmp2 : match_person true first last org li em resp2 = matchLoop resp2 3 0 := by
      unfold match_person
      rw [if_neg (by simp), if_neg hpay]
    rw [hmp, hmp2]
    exact matchLoop_congr resp resp2 3 0 (fun j hj => by simpa using hag j hj)

/-- Witness for C9: all-429 responses exhaust the three attempts with
waits 10, 20, 40; an immediate 422 yields no result with no waits. -/
theorem claim_C9_witness :
    buildPayload "Ann" "Smith" "Acme" "" "" ≠ [] ∧
    match_person true "Ann" "Smith" "Acme" "" "" (fun _ => .http 429) =
      (.errorRetries, [10, 20, 40]) ∧
    match_person true "Ann" "Smith" "Acme" "" "" (fun _ => .http 422) =
      (.result none, []) := by
  refine ⟨by decide, ?_, ?_⟩
  · exact (claim_C9_resilient_wrapper "Ann" "Smith" "Acme" "" ""
      (fun _ => .http 429) (by decide)).1 (fun i _ => rfl)
  · have := (claim_C9_resilient_wrapper "Ann" "Smith" "Acme" "" ""
      (fun _ => .http 422) (by decide)).2.1 0 (by omega)
      (fun j hj => absurd hj (Nat.not_lt_zero j)) rfl
    simpa using this

/-! ## Claim C3: drafting idempotency and the `--force` paths -/

lemma rowCount_append (a b : List OutreachRow) (pid : String) :
    rowCount (a ++ b) pid = rowCount a pid + rowCount b pid := by
  simp [rowCount, List.filter_append]

lemma draftInserts_mem (outcome : Person → Option (String × String)) :
    ∀ (ps : List Person) (r : OutreachRow), r ∈ draftInserts outcome ps →
      ∃ p ∈ ps, r.person_id = p.id := by
  intro ps
  induction ps with
  | nil => intro r hr; simp [draftInserts] at hr
  | cons p rest ih =>
      intro r hr
      unfold draftInserts at hr
      cases houtcome : outcome p with
      | none =>
          rw [houtcome] at hr
          obtain ⟨q, hq, hqid⟩ := ih r hr
          exact ⟨q, List.mem_cons_of_mem p hq, hqid⟩
      | some sb =>
          obtain ⟨sj, bj⟩ := sb
          rw [houtcome] at hr
          rcases List.mem_cons.mp hr with hr | hr
          · exact ⟨p, List.mem_cons_self p rest, by rw [hr]; rfl⟩
          · obtain ⟨q, hq, hqid⟩ := ih r hr
            exact ⟨q, List.mem_cons_of_mem p hq, hqid⟩

lemma save_to_db_existing_counts (outreach : List OutreachRow) (p : Person)
    (s b research tone : String)
    (hex : outreach.filter (fun r => r.person_id == p.id) ≠ []) (pid : String) :
    rowCount (save_to_db outreach p s b research tone) pid = rowCount outreach pid := by
  unfold save_to_db
  obtain ⟨r0, rest, hr⟩ :
      ∃ r0 rest, outreach.filter (fun r => r.person_id == p.id) = r0 :: rest := by
    cases hfil : outreach.filter (fun r => r.person_id == p.id) with
    | nil => exact absurd hfil hex
    | cons a t => exact ⟨a, t, rfl⟩
  rw [hr]
  simp only [List.head?_cons]
  simp only [rowCount, List.filter_map]
  rw [List.length_map]
  congr 1
  apply List.filter_congr
  intro r _
  by_cases hid : r.id = r0.id <;> simp [hid]

/-- An existing outreach row for the drafted prospect `pd1`. -/
def rowExisting : OutreachRow :=
  { id := "r1"
    person_id := "pd1"
    channel := "email"
    subject := "s0"
    body := "b0"
    research_notes := none
    tone := none
    status := "drafted" }

/-- The prospect `pd1`, enriched and scored above the threshold. -/
def drafteeP : Person :=
  { draftedProspect with
    id := "pd1"
    status := "enriched"
    priority_score := some 80 }

/-- C3 counterexample: with `--force`, the basic drafting path
(`draft.py`) inserts a second `Outreach` row for a prospect that
already has one — it has no update path — contradicting "never inserts
a second Outreach row for the same prospect". -/
theorem claim_C3_counterexample :
    rowCount [rowExisting] "pd1" = 1 ∧
    rowCount (draft_main [rowExisting] [drafteeP] none none 40 true
      (fun _ => some ("s1", "b1"))) "pd1" = 2 := by
  refine ⟨rfl, ?_⟩
  decide

/-- C3 (amended): without `--force`, re-running either drafting path
for an already-drafted prospect creates zero new Outreach rows (the
basic path filters the prospect out; the research path exits before
writing).  With `--force`, the research-augmented path updates the
existing row in place without changing any row count, but the basic
path appends a second Outreach row for the prospect. -/
theorem claim_C3_amended :
    (∀ (outreach : List OutreachRow) (people : List Person)
        (personId : Option String) (forTag : Option String) (minScore : Int)
        (outcome : Person → Option (String × String)) (pid : String),
      pid ∈ alreadyDraftedIds outreach →
      rowCount (draft_main outreach people personId forTag minScore false outcome) pid =
        rowCount outreach pid) ∧
    (∀ (outreach : List OutreachRow) (p : Person)
        (email : Option (String × String)) (research tone : String),
      outreach.filter (fun r => r.person_id == p.id) ≠ [] →
      research_draft_main outreach p false email research tone = outreach) ∧
    (∀ (outreach : List OutreachRow) (p : Person) (s b research tone : String)
        (pid : String),
      outreach.filter (fun r => r.person_id == p.id) ≠ [] →
      rowCount (research_draft_main outreach p true (some (s, b)) research tone) pid =
        rowCount outreach pid) ∧
    (∀ (outreach : List OutreachRow) (p : Person) (minScore : Int) (s b : String),
      rowCount (draft_main outreach [p] (some p.id) none minScore true
        (fun _ => some (s, b))) p.id = rowCount outreach p.id + 1) := by
  refine ⟨fun outreach people personId forTag minScore outcome pid hpid => ?_,
    fun outreach p email research tone hex => ?_,
    fun outreach p s b research tone pid hex => ?_,
    fun outreach p minScore s b => ?_⟩
  · unfold draft_main
    dsimp only
    rw [if_neg (by simp), rowCount_append]
    have hzero : rowCount (draftInserts outcome
        ((get_people_to_draft people personId forTag minScore).filter
          (fun p => !((alreadyDraftedIds outreach).contains p.id)))) pid = 0 := by
      rw [rowCount, List.length_eq_zero, List.filter_eq_nil_iff]
      intro r hr
      obtain ⟨q, hq, hqid⟩ := draftInserts_mem outcome _ r hr
      have hq2 := (List.mem_filter.mp hq).2
      simp at hq2
      have hne : q.id ≠ pid := fun hcontra => hq2 (hcontra ▸ hpid)
      simp [hqid, hne]
    omega
  · unfold research_draft_main
    rw [if_pos ⟨by simp, hex⟩]
  · unfold research_draft_main
    rw [if_neg (by simp)]
    exact save_to_db_existing_counts outreach p s b research tone hex pid
  · unfold draft_main get_people_to_draft
    dsimp only
    rw [if_pos rfl, rowCount_append]
    have hsel : (List.filter (fun q => q.id == p.id) [p]) = [p] := by simp
    rw [hsel]
    simp [draftInserts, draftInsertRow, rowCount]

/-- An existing outreach row for prospect `pw`. -/
def rowW : OutreachRow :=
  { id := "r1"
    person_id := "pw"
    channel := "email"
    subject := "s0"
    body := "b0"
    research_notes := none
    tone := none
    status := "drafted" }

/-- The prospect `pw`, enriched and scored. -/
def personW : Person :=
  { draftedProspect with
    id := "pw"
    status := "enriched"
    priority_score := some 80 }

/-- Witness for the amended C3 at concrete tables. -/
theorem claim_C3_witness :
    rowCount (draft_main [rowW] [personW] none none 40 false
      (fun _ => some ("s1", "b1"))) "pw" = rowCount [rowW] "pw" ∧
    research_draft_main [rowW] personW false (some ("s1", "b1")) "res" "warm" =
      [rowW] ∧
    rowCount (research_draft_main [rowW] personW true (some ("s1", "b1"))
      "res" "warm") "pw" = rowCount [rowW] "pw" :=
  ⟨claim_C3_amended.1 [rowW] [personW] none none 40 (fun _ => some ("s1", "b1"))
      "pw" (by decide),
    claim_C3_amended.2.1 [rowW] personW (some ("s1", "b1")) "res" "warm" (by decide),
    claim_C3_amended.2.2.1 [rowW] personW "s1" "b1" "res" "warm" "pw" (by decide)⟩

/-! ## Claims C7 and C8: the Structured Output Extractor -/

/-- The empty whitespace run. -/
lemma wsNil : WsL ([] : List Char) := fun c hc => absurd hc (List.not_mem_nil c)

/-- A string body of plain (unescaped) characters is valid. -/
lemma sbody_plain_all (body : List Char)
    (h : ∀ c ∈ body, c ≠ '"' ∧ c ≠ '\\' ∧ 0x20 ≤ c.toNat) : SBody body := by
  induction body with
  | nil => exact SBody.nil
  | cons c rest ih =>
      obtain ⟨h1, h2, h3⟩ := h c (List.mem_cons_self c rest)
      exact SBody.plain c rest h1 h2 h3 (ih fun x hx => h x (List.mem_cons_of_mem c hx))

/-- Cleaning a `json.loads`-valid text is the identity on its trimmed
core: the fence strip, backtick strip and re-strip steps do nothing. -/
lemma pipeline_core (content core w₁ w₂ : List Char) (v : Json)
    (hw₁ : WsL w₁) (hw₂ : WsL w₂) (hjg : JG core (.val v))
    (hsplit : content = w₁ ++ core ++ w₂) :
    score_pipeline content = core ∧ pyStripL content = core := by
  obtain ⟨c, rest, hc, hcw, hcb, _⟩ := jg_head core v hjg
  obtain ⟨d, hd, hdw, hdb, _⟩ := jg_val_last core v hjg
  have hstrip : pyStripL content = core := by
    rw [hsplit]
    exact pyStrip_sandwich w₁ core w₂ (fun x hx => jsonWs_pyWs x (hw₁ x hx))
      (fun x hx => jsonWs_pyWs x (hw₂ x hx)) ⟨c, rest, hc, hcw⟩ ⟨d, hd, hdw⟩
  refine ⟨?_, hstrip⟩
  unfold score_pipeline
  rw [hstrip, stripFence_id core ⟨c, rest, hc, hcb⟩, rstripBtick_id core ⟨d, hd, hdb⟩]
  exact pyStrip_fixed core ⟨c, rest, hc, hcw⟩ ⟨d, hd, hdw⟩

/-- C8 (confirmed): the extractor round-trips valid input.  For a
syntactically valid array text not flagged as truncated, the
multi-entity pipeline (`extract_people`) hands `json.loads` exactly the
trimmed text, which parses to the same value; for any valid text
(in particular a JSON object), the single-record pipeline
(`score_person` / `parse_json_response`) does the same. -/
theorem claim_C8_roundtrip :
    (∀ (content : List Char) (vs : List Json), PyLoads content (Json.arr vs) →
      extract_pipeline false content = pyStripL content ∧
      PyLoads (extract_pipeline false content) (Json.arr vs)) ∧
    (∀ (content : List Char) (v : Json), PyLoads content v →
      score_pipeline content = pyStripL content ∧
      PyLoads (score_pipeline content) v) := by
  refine ⟨fun content vs h => ?_, fun content v h => ?_⟩
  · obtain ⟨w₁, core, w₂, hw₁, hw₂, hjg, hsplit⟩ := h
    obtain ⟨hscore, hstrip⟩ :=
      pipeline_core content core w₁ w₂ (Json.arr vs) hw₁ hw₂ hjg hsplit
    obtain ⟨c, rest, hc, _, _, harr⟩ := jg_head core (Json.arr vs) hjg
    have hcbr : c = '[' := harr vs rfl
    obtain ⟨d, hd, _, _, hdarr⟩ := jg_val_last core (Json.arr vs) hjg
    have hdbr : d = ']' := hdarr vs rfl
    have hpre : preRepair content = core := by
      unfold score_pipeline at hscore
      unfold preRepair
      rw [hscore]
      exact sliceFromBracket_head core rest (hcbr ▸ hc)
    have hrep : extract_pipeline false content = core := by
      unfold extract_pipeline
      rw [hpre]
      exact repair_id core (hdbr ▸ hd)
    refine ⟨by rw [hrep, hstrip], ?_⟩
    rw [hrep]
    exact ⟨[], core, [], wsNil, wsNil, hjg, by simp⟩
  · obtain ⟨w₁, core, w₂, hw₁, hw₂, hjg, hsplit⟩ := h
    obtain ⟨hscore, hstrip⟩ :=
      pipeline_core content core w₁ w₂ v hw₁ hw₂ hjg hsplit
    refine ⟨by rw [hscore, hstrip], ?_⟩
    rw [hscore]
    exact ⟨[], core, [], wsNil, wsNil, hjg, by simp⟩

/-- Concrete array text `[10]` with surrounding whitespace. -/
def arrText : List Char := [' ', '[', '1', '0', ']', '\n']

/-- Its parsed value. -/
def arrVal : Json := Json.arr [Json.num ['1', '0']]

/-- The characters of the key `name`. -/
def nameKey : List Char := ['n', 'a', 'm', 'e']

/-- The object text from the spec scenario. -/
def objText : List Char :=
  ['{', '"', 'n', 'a', 'm', 'e', '"', ':', '"', 'A', '"', '}']

/-- Its parsed value. -/
def objVal : Json := Json.obj [(nameKey, Json.str ['A'])]

lemma jg_num10 : JG ['1', '0'] (.val (Json.num ['1', '0'])) :=
  JG.numTok _ ⟨[], ['1', '0'], [], [], rfl, Or.inl rfl,
    ⟨⟨by decide, by decide⟩, fun h => absurd h (by decide)⟩,
    Or.inl rfl, Or.inl rfl⟩

lemma jg_arr10 : JG ['[', '1', '0', ']'] (.val arrVal) :=
  JG.arrCons _ _ (JG.elemsLast [] ['1', '0'] [] _ wsNil jg_num10 wsNil)

lemma strTok_name : StrTok ['"', 'n', 'a', 'm', 'e', '"'] nameKey :=
  ⟨rfl, sbody_plain_all nameKey (by decide)⟩

lemma jg_strA : JG ['"', 'A', '"'] (.val (Json.str ['A'])) :=
  JG.strTok _ _ ⟨rfl, sbody_plain_all ['A'] (by decide)⟩

lemma jg_objA : JG objText (.val objVal) :=
  JG.objCons _ _ (JG.memsLast [] ['"', 'n', 'a', 'm', 'e', '"'] [] []
    ['"', 'A', '"'] [] nameKey (Json.str ['A'])
    wsNil strTok_name wsNil wsNil jg_strA wsNil)

/-- Witness for C8 at concrete texts: an array round-trips through the
extraction pipeline and an object round-trips through the
single-record pipeline. -/
theorem claim_C8_witness :
    extract_pipeline false arrText = pyStripL arrText ∧
    PyLoads (extract_pipeline false arrText) arrVal ∧
    score_pipeline (' ' :: objText) = pyStripL (' ' :: objText) ∧
    PyLoads (score_pipeline (' ' :: objText)) objVal := by
  have harr := claim_C8_roundtrip.1 arrText [Json.num ['1', '0']]
    ⟨[' '], ['[', '1', '0', ']'], ['\n'], by decide, by decide, jg_arr10, rfl⟩
  have hobj := claim_C8_roundtrip.2 (' ' :: objText) objVal
    ⟨[' '], objText, [], by decide, wsNil, jg_objA, rfl⟩
  exact ⟨harr.1, harr.2, hobj.1, hobj.2⟩

/-- The truncated completion of the spec scenario:
the text of the claim cut off inside the second element. -/
def scenarioText : List Char :=
  ['[', '{', '"', 'n', 'a', 'm', 'e', '"', ':', '"', 'A', '"', '}', ',',
   '{', '"', 'n', 'a', 'm', 'e', '"', ':', '"', 'B', '"']

/-- The repaired text obtained by cutting at the last `}` and appending
`]`. -/
def repairedScenario : List Char :=
  ['[', '{', '"', 'n', 'a', 'm', 'e', '"', ':', '"', 'A', '"', '}', ']']

/-- Its parsed value. -/
def scenarioVal : Json := Json.arr [objVal]

lemma jg_repaired : JG repairedScenario (.val scenarioVal) :=
  JG.arrCons _ _ (JG.elemsLast [] objText [] _ wsNil jg_objA wsNil)

/-- C7 (confirmed): whenever the completion is flagged as truncated or
the cleaned text does not end with `]`, the extractor cuts the cleaned
text after the last `}` and appends `]`; in particular the truncated
scenario text is repaired to the one-element array, which parses. -/
theorem claim_C7_truncation_repair :
    (∀ (truncated : Bool) (content : List Char) (i : Nat),
      truncated = true ∨ endsWithBracketL (preRepair content) = false →
      lastIdxOf '}' (preRepair content) = some i →
      extract_pipeline truncated content =
        (preRepair content).take (i + 1) ++ [']']) ∧
    (extract_pipeline true scenarioText = repairedScenario ∧
      PyLoads repairedScenario scenarioVal) := by
  refine ⟨fun truncated content i hcond hidx => ?_, ?_, ?_⟩
  · unfold extract_pipeline repairL
    rcases hcond with ht | he
    · subst ht
      simp [hidx]
    · rw [he]
      simp [hidx]
  · decide
  · exact ⟨[], repairedScenario, [], wsNil, wsNil, jg_repaired, by simp⟩

/-- Witness for C7 at the scenario input: the last `}` of the cleaned
scenario text sits at index 12, and the repair produces exactly the
take-and-close text. -/
theorem claim_C7_witness :
    lastIdxOf '}' (preRepair scenarioText) = some 12 ∧
    extract_pipeline true scenarioText =
      (preRepair scenarioText).take 13 ++ [']'] :=
  ⟨by decide,
    claim_C7_truncation_repair.1 true scenarioText 12 (Or.inl rfl) (by decide)⟩

end Acceler
